import Mathlib

/-!
Shallow embedding of the versioned synchronization and history engine of the
`vscode_file_syncer` repository (files `src/history/historyManager.ts`,
`src/history/historyStorage.ts`, `src/history/rollbackManager.ts`,
`src/sync/syncManager.ts`), together with theorems settling the frozen
claims C1-C10 about it.

External collaborators of the code (Node's `fs`/`path` libraries, the
`minimatch` glob library, the SFTP transport, the VS Code configuration and
UI surfaces, and JavaScript's `Date`) are modelled as parameters: the
embedding is parametric in their behaviour, exactly as the source treats
them as opaque capabilities.  JavaScript timestamps (`Date.now()`,
millisecond epoch values) are modelled as `Int` so that subtraction behaves
as in the source.
-/

/-- Transfer direction of a history entry (`operation: 'upload' | 'download'`
in `historyStorage.ts`). -/
inductive Op where
  | upload
  | download
deriving DecidableEq, Repr, BEq

/-- String form of an operation, used by `HistoryManager.getBackupKey`. -/
def Op.str : Op → String
  | .upload => "upload"
  | .download => "download"

/-- `HistoryEntry` from `historyStorage.ts`: one committed (or pending)
transfer event.  `timestamp` is a millisecond epoch value (`Date.now()`). -/
structure HistoryEntry where
  id : String
  timestamp : Int
  operation : Op
  localPath : String
  remotePath : String
  profileName : String
  fileSize : Nat
  hash : String
deriving DecidableEq, Repr

/-- `ServerProfile` (fields relevant to the sync engine: `profileManager.ts`). -/
structure ServerProfile where
  name : String
  remotePath : String
  exclude : List String
deriving DecidableEq, Repr

/-- The two retention-policy settings read by
`HistoryStorage.cleanupOldEntries` (`filesyncer.maxHistoryVersions`,
`filesyncer.historyMaxAgeDays`). -/
structure RetentionConfig where
  maxVersions : Nat
  maxAgeDays : Nat
deriving DecidableEq, Repr

/-- `maxAge = maxAgeDays * 24 * 60 * 60 * 1000` in `cleanupOldEntries`. -/
def RetentionConfig.maxAgeMs (c : RetentionConfig) : Int :=
  (c.maxAgeDays : Int) * 24 * 60 * 60 * 1000

/-- `SyncResult` from `syncManager.ts`. -/
structure SyncResult where
  success : Bool
  filesProcessed : Nat
  errors : List String
deriving DecidableEq, Repr

/-! ## HistoryStorage: the durable index and retention pruning -/

/-- The descending-timestamp comparison used by
`entries.sort((a, b) => b.timestamp - a.timestamp)`. -/
def tsDesc (a b : HistoryEntry) : Prop := b.timestamp ≤ a.timestamp

instance : DecidableRel tsDesc := fun _ _ => Int.decLe _ _

/-- The group of index entries for one local path, in index order
(the per-path buckets built by `cleanupOldEntries`' `entriesByFile` map). -/
def groupFor (index : List HistoryEntry) (p : String) : List HistoryEntry :=
  index.filter (fun e => e.localPath == p)

/-- A per-path group sorted newest-first, as `cleanupOldEntries` sorts it. -/
def sortedGroup (index : List HistoryEntry) (p : String) : List HistoryEntry :=
  List.insertionSort tsDesc (groupFor index p)

/-- The distinct local paths of the index, i.e. the key set of the
`entriesByFile` map in `cleanupOldEntries`. -/
def localPaths (index : List HistoryEntry) : List String :=
  (index.map (·.localPath)).dedup

/-- The entries `entries.slice(maxVersions)` marks beyond the count cutoff
for one path (`if (entries.length > maxVersions)` in `cleanupOldEntries`). -/
def countOverflow (c : RetentionConfig) (index : List HistoryEntry) (p : String) :
    List HistoryEntry :=
  let es := sortedGroup index p
  if c.maxVersions < es.length then es.drop c.maxVersions else []

/-- The entries older than the age cap for one path
(`now - entry.timestamp > maxAge` in `cleanupOldEntries`). -/
def ageExpired (c : RetentionConfig) (now : Int) (index : List HistoryEntry)
    (p : String) : List HistoryEntry :=
  (sortedGroup index p).filter (fun e => decide (c.maxAgeMs < now - e.timestamp))

/-- The `entriesToDelete` accumulator of `cleanupOldEntries`: per path, the
count overflow followed by the age-expired entries. -/
def entriesToDelete (c : RetentionConfig) (now : Int) (index : List HistoryEntry) :
    List HistoryEntry :=
  (localPaths index).flatMap
    (fun p => countOverflow c index p ++ ageExpired c now index p)

/-- One `deleteEntry` call's effect on the index:
`this.index.entries = this.index.entries.filter(e => e.id !== entry.id)`. -/
def deleteById (index : List HistoryEntry) (d : HistoryEntry) : List HistoryEntry :=
  index.filter (fun e => e.id != d.id)

/-- `HistoryStorage.cleanupOldEntries`: compute the deletion set from the
current index, then delete each marked entry (by id) in sequence. -/
def cleanupOldEntries (c : RetentionConfig) (now : Int)
    (index : List HistoryEntry) : List HistoryEntry :=
  (entriesToDelete c now index).foldl deleteById index

/-- `HistoryStorage.addEntry`: push the committed entry, persist, then run
the retention pruning pass. -/
def addEntry (c : RetentionConfig) (now : Int) (index : List HistoryEntry)
    (entry : HistoryEntry) : List HistoryEntry :=
  cleanupOldEntries c now (index ++ [entry])

/-- The filter inside `HistoryStorage.generateVersionSuffix`: already-indexed
entries with the same local path, operation and profile name. -/
def tripleEntries (index : List HistoryEntry) (localPath : String)
    (entry : HistoryEntry) : List HistoryEntry :=
  index.filter (fun e =>
    e.localPath == localPath && e.operation == entry.operation &&
      e.profileName == entry.profileName)

/-- `HistoryStorage.generateVersionSuffix`: the version ordinal is
`existingEntries.length + 1` (the source stringifies this number into the
blob name; we keep the ordinal itself). -/
def generateVersionSuffix (index : List HistoryEntry) (localPath : String)
    (entry : HistoryEntry) : Nat :=
  (tripleEntries index localPath entry).length + 1

/-- Number of index entries for one local path. -/
def countForPath (index : List HistoryEntry) (p : String) : Nat :=
  (groupFor index p).length

/-! ## HistoryStorage: on-disk snapshot blobs

The snapshot area is modelled as a list of version directories, each holding
named blobs with their byte content (file bytes are modelled as `String`).
`fs.readdirSync` of a missing directory throws, which the model renders as
`Except.error`. -/

/-- The snapshot directory tree under `.vscode/filesyncer/history`:
directory name to its files (name, content). -/
structure BackupStore where
  dirs : List (String × List (String × String))
deriving DecidableEq, Repr

/-- `fs.readdirSync(versionDir)`: directory listing, or an ENOENT throw when
the directory does not exist. -/
def readDir (st : BackupStore) (d : String) : Except String (List (String × String)) :=
  match st.dirs.find? (fun x => x.1 == d) with
  | some x => .ok x.2
  | none => .error ("ENOENT: no such directory " ++ d)

/-- `fs.mkdirSync` + `fs.copyFileSync` into a version directory: create the
directory if missing, then write (overwrite) the named blob. -/
def storeWrite (st : BackupStore) (d fname content : String) : BackupStore :=
  match st.dirs.find? (fun x => x.1 == d) with
  | some x =>
      ⟨(d, (fname, content) :: x.2.filter (fun f => f.1 != fname))
        :: st.dirs.filter (fun y => y.1 != d)⟩
  | none => ⟨(d, [(fname, content)]) :: st.dirs⟩

/-- `HistoryStorage.getVersionDir`: the directory key derived from the
entry's timestamp and profile name.  The ISO-8601 rendering done by
JavaScript's `Date` is abstracted as a parameter `dateStr`. -/
def versionDirName (dateStr : Int → String) (e : HistoryEntry) : String :=
  dateStr e.timestamp ++ "_" ++ e.profileName

/-- Character-level check that a file name contains the substring `"_v"`
(`f.includes('_v')`). -/
def hasVTag : List Char → Bool
  | [] => false
  | '_' :: 'v' :: _ => true
  | _ :: rest => hasVTag rest

/-- Character-level `f.startsWith(fileName)`. -/
def leadsWith : List Char → List Char → Bool
  | [], _ => true
  | _ :: _, [] => false
  | a :: as, b :: bs => a == b && leadsWith as bs

/-- The predicate of `files.find(f => f.startsWith(fileName) && f.includes('_v'))`
used by both `getBackupPath` and `deleteEntry`. -/
def isBackupName (base fname : String) : Bool :=
  leadsWith base.data fname.data && hasVTag fname.data

/-- `HistoryStorage.getBackupPath`: re-derive the version directory, list it
(this throws if the directory is gone), and return the first file whose name
starts with the entry's base file name and contains `_v`, with its content;
`none` when no file matches.  `baseName` abstracts `path.basename`. -/
def getBackupPath (dateStr : Int → String) (baseName : String → String)
    (st : BackupStore) (e : HistoryEntry) :
    Except String (Option (String × String)) :=
  match readDir st (versionDirName dateStr e) with
  | .error m => .error m
  | .ok files => .ok (files.find? (fun f => isBackupName (baseName e.localPath) f.1))

/-! ## HistoryManager: the two-phase snapshot/commit protocol -/

/-- `HistoryManager.getBackupKey`: `` `${localPath}|${remotePath}|${operation}` ``. -/
def backupKey (localPath remotePath : String) (op : Op) : String :=
  localPath ++ "|" ++ remotePath ++ "|" ++ op.str

/-- The `pendingBackups` map, as an association list with newest binding
first (a set for an existing key shadows the old binding). -/
abbrev Pending := List (String × HistoryEntry)

/-- `Map.get` on the pending map. -/
def pendingGet (p : Pending) (k : String) : Option HistoryEntry :=
  match List.find? (fun x => x.1 == k) p with
  | some x => some x.2
  | none => none

/-- `Map.set` on the pending map. -/
def pendingSet (p : Pending) (k : String) (e : HistoryEntry) : Pending :=
  (k, e) :: (List.filter (fun x => x.1 != k) p)

/-- `Map.delete` on the pending map. -/
def pendingDel (p : Pending) (k : String) : Pending :=
  List.filter (fun x => x.1 != k) p

/-- Combined mutable state owned by `HistoryManager`/`HistoryStorage`: the
pending-backup map, the durable index, and the snapshot blob area. -/
structure HistoryState where
  pending : Pending
  index : List HistoryEntry
  store : BackupStore
deriving DecidableEq, Repr

/-- The slice of the environment the history layer reads: the active
profile, the local filesystem (existence, bytes, size, hash), the retention
settings, the clock, and the `path`/`Date` helpers. -/
structure HistoryEnv where
  activeProfile : Option ServerProfile
  localExists : String → Bool
  localContent : String → String
  localSize : String → Nat
  localHash : String → String
  retention : RetentionConfig
  now : Int
  dateStr : Int → String
  baseName : String → String

/-- `HistoryStorage.backupFile`: derive the version directory and backup
file name (base name + `_v` + version suffix), copy the live bytes into the
blob, and record size and hash on the entry.  Returns the updated entry and
store.  When the local file does not exist the blob is still not written and
the entry keeps size 0 / empty hash (the source's copy and stat are guarded
by `fs.existsSync`); the directory, however, is created unconditionally —
faithful to the source, which runs `mkdirSync` before the existence check. -/
def backupFile (env : HistoryEnv) (index : List HistoryEntry)
    (st : BackupStore) (localPath : String) (entry : HistoryEntry) :
    HistoryEntry × BackupStore :=
  let d := versionDirName env.dateStr entry
  let st1 := match st.dirs.find? (fun x => x.1 == d) with
    | some _ => st
    | none => ⟨(d, []) :: st.dirs⟩
  let fname := env.baseName localPath ++ "_v" ++
    toString (generateVersionSuffix index localPath entry)
  if env.localExists localPath then
    ({ entry with
        hash := env.localHash localPath,
        fileSize := env.localSize localPath },
      storeWrite st1 d fname (env.localContent localPath))
  else (entry, st1)

/-- `HistoryManager.recordBeforeUpload` / `recordBeforeDownload`: build a
fresh entry; when no profile is active do nothing; when the local file
exists, snapshot it and key it into the pending map; otherwise leave the
state untouched.  `id` stands for the generated unique id. -/
def recordBefore (env : HistoryEnv) (op : Op) (id : String)
    (localPath remotePath : String) (s : HistoryState) : HistoryState :=
  match env.activeProfile with
  | none => s
  | some profile =>
    let entry : HistoryEntry :=
      { id := id, timestamp := env.now, operation := op,
        localPath := localPath, remotePath := remotePath,
        profileName := profile.name, fileSize := 0, hash := "" }
    if env.localExists localPath then
      let r := backupFile env s.index s.store localPath entry
      { s with
        store := r.2
        pending := pendingSet s.pending (backupKey localPath remotePath op) r.1 }
    else s

/-- `HistoryManager.recordAfterUpload` / `recordAfterDownload`: look up the
pending entry by key; when found, commit it through `addEntry` (which runs
the pruning pass) and clear the pending marker; otherwise do nothing. -/
def recordAfter (env : HistoryEnv) (op : Op)
    (localPath remotePath : String) (s : HistoryState) : HistoryState :=
  let k := backupKey localPath remotePath op
  match pendingGet s.pending k with
  | some entry =>
      { s with
        pending := pendingDel s.pending k
        index := addEntry env.retention env.now s.index entry }
  | none => s

/-- `HistoryManager.restoreFromHistory`: resolve the backup blob; on any
failure (version directory gone, or no matching blob) throw and leave the
local filesystem untouched; otherwise overwrite `entry.localPath` with the
blob's bytes (`fs.copyFileSync(backupPath, entry.localPath)`). -/
def restoreFromHistory (dateStr : Int → String) (baseName : String → String)
    (st : BackupStore) (localFs : String → Option String) (e : HistoryEntry) :
    Except String Unit × (String → Option String) :=
  match getBackupPath dateStr baseName st e with
  | .error m => (.error m, localFs)
  | .ok none => (.error "Backup file not found", localFs)
  | .ok (some f) =>
      (.ok (), fun p => if p = e.localPath then some f.2 else localFs p)

/-! ## SyncManager: the sync engine

`syncManager.ts` is modelled operation by operation.  The environment
bundles the external collaborators the engine consults: profile/config
store, workspace, transport client (`putFile`/`getFile`/`exists`, each of
which may throw, modelled by `Except`), the user's overwrite-confirmation
answer, the cancellation token polled once per file, the filesystem walks,
the `minimatch` matcher, and Node's `path` helpers.  Each operation returns
its `SyncResult`, the list of transport transfer calls it performed (source
then destination), and the final history state. -/

structure SyncEnv where
  activeProfile : Option ServerProfile
  workspaceRoot : Option String
  confirmBeforeOverwrite : Bool
  userConfirms : Bool
  connectResult : Except String Unit
  remoteExists : String → Bool
  localExists : String → Bool
  localContent : String → String
  localSize : String → Nat
  localHash : String → String
  putFile : String → String → Except String Unit
  getFile : String → String → Except String Unit
  cancelled : Nat → Bool
  retention : RetentionConfig
  now : Int
  genId : Nat → String
  getAllFiles : String → List String
  listRemoteFiles : String → List String
  matcher : String → String → Bool → Bool
  pathRelative : String → String → String
  posixRelative : String → String → String
  pathJoin : String → String → String
  posixJoin : String → String → String
  baseName : String → String
  sepToPosix : String → String
  sepToLocal : String → String
  dateStr : Int → String

/-- The history-layer slice of a `SyncEnv`. -/
def SyncEnv.hist (env : SyncEnv) : HistoryEnv :=
  { activeProfile := env.activeProfile
    localExists := env.localExists
    localContent := env.localContent
    localSize := env.localSize
    localHash := env.localHash
    retention := env.retention
    now := env.now
    dateStr := env.dateStr
    baseName := env.baseName }

/-- `SyncManager.getRemotePath`: without a workspace root, join the remote
base with the file's base name; otherwise with the path relative to the
workspace root, converted to posix separators. -/
def getRemotePath (env : SyncEnv) (localPath remoteBase : String) : String :=
  match env.workspaceRoot with
  | none => env.posixJoin remoteBase (env.baseName localPath)
  | some root =>
      env.posixJoin remoteBase (env.sepToPosix (env.pathRelative root localPath))

/-- `SyncManager.getLocalPath`: throws when no workspace root is open,
otherwise joins the root with the remote path relative to the remote base. -/
def getLocalPath (env : SyncEnv) (remotePath remoteBase : String) :
    Except String String :=
  match env.workspaceRoot with
  | none => .error "No workspace folder open"
  | some root =>
      .ok (env.pathJoin root (env.sepToLocal (env.posixRelative remoteBase remotePath)))

/-- `SyncManager.shouldExclude`: the path is excluded when some pattern
matches it under plain or dotfile-inclusive (`{ dot: true }`) `minimatch`
semantics. -/
def shouldExclude (m : String → String → Bool → Bool) (filePath : String)
    (patterns : List String) : Bool :=
  patterns.any (fun pat => m filePath pat false || m filePath pat true)

/-- A failed `SyncResult` as produced by the `catch` blocks of
`syncManager.ts`: `success = false` and the stringified error appended. -/
def failResult (errs : List String) (processed : Nat) (msg : String) : SyncResult :=
  { success := false, filesProcessed := processed, errors := errs ++ [msg] }

/-- `SyncManager.uploadFile`.  `rp?` is the optional explicit remote path. -/
def uploadFile (env : SyncEnv) (localPath : String) (rp? : Option String)
    (s : HistoryState) : SyncResult × List (String × String) × HistoryState :=
  match env.activeProfile with
  | none => (failResult [] 0 "No active server profile", [], s)
  | some profile =>
    let target := rp?.getD (getRemotePath env localPath profile.remotePath)
    match env.connectResult with
    | .error m => (failResult [] 0 m, [], s)
    | .ok _ =>
      if env.confirmBeforeOverwrite && env.remoteExists target &&
          !env.userConfirms then
        ({ success := true, filesProcessed := 0, errors := [] }, [], s)
      else
        let s1 := recordBefore env.hist .upload (env.genId 0) localPath target s
        match env.putFile localPath target with
        | .error m => (failResult [] 0 m, [(localPath, target)], s1)
        | .ok _ =>
            let s2 := recordAfter env.hist .upload localPath target s1
            ({ success := true, filesProcessed := 1, errors := [] },
              [(localPath, target)], s2)

/-- `SyncManager.downloadFile`.  `lp?` is the optional explicit local path. -/
def downloadFile (env : SyncEnv) (remotePath : String) (lp? : Option String)
    (s : HistoryState) : SyncResult × List (String × String) × HistoryState :=
  match env.activeProfile with
  | none => (failResult [] 0 "No active server profile", [], s)
  | some profile =>
    match lp?.map Except.ok |>.getD (getLocalPath env remotePath profile.remotePath) with
    | .error m => (failResult [] 0 m, [], s)
    | .ok target =>
      match env.connectResult with
      | .error m => (failResult [] 0 m, [], s)
      | .ok _ =>
        if env.confirmBeforeOverwrite && env.localExists target &&
            !env.userConfirms then
          ({ success := true, filesProcessed := 0, errors := [] }, [], s)
        else
          let s1 := recordBefore env.hist .download (env.genId 0) target remotePath s
          match env.getFile remotePath target with
          | .error m => (failResult [] 0 m, [(remotePath, target)], s1)
          | .ok _ =>
              let s2 := recordAfter env.hist .download target remotePath s1
              ({ success := true, filesProcessed := 1, errors := [] },
                [(remotePath, target)], s2)

/-- Accumulator of a bulk-operation loop: the closure-captured `result`
object, the transfer calls made so far, the history state, and the
cancellation exception (if thrown, it aborts the loop and is handled by the
operation's outer `catch`). -/
structure BatchAcc where
  res : SyncResult
  transfers : List (String × String)
  hist : HistoryState
  exn : Option String
deriving Repr

/-- The per-file loop of `uploadFolder`/`syncAll`: poll the token, then
`recordBeforeUpload`, `putFile`, `recordAfterUpload` inside a per-file
`try`; a transport failure appends `` `${file}: ${error}` `` and continues;
a success increments `filesProcessed`.  `mapRemote` is the remote path
computation of the enclosing operation and `i` the loop index. -/
def uploadLoop (env : SyncEnv) (mapRemote : String → String) (cancelMsg : String) :
    Nat → List String → BatchAcc → BatchAcc
  | _, [], acc => acc
  | i, f :: rest, acc =>
    if env.cancelled i then { acc with exn := some cancelMsg }
    else
      let rf := mapRemote f
      let s1 := recordBefore env.hist .upload (env.genId i) f rf acc.hist
      match env.putFile f rf with
      | .ok _ =>
          let s2 := recordAfter env.hist .upload f rf s1
          uploadLoop env mapRemote cancelMsg (i + 1) rest
            { res := { acc.res with filesProcessed := acc.res.filesProcessed + 1 }
              transfers := acc.transfers ++ [(f, rf)]
              hist := s2
              exn := acc.exn }
      | .error m =>
          uploadLoop env mapRemote cancelMsg (i + 1) rest
            { res := { acc.res with errors := acc.res.errors ++ [f ++ ": " ++ m] }
              transfers := acc.transfers ++ [(f, rf)]
              hist := s1
              exn := acc.exn }

/-- The per-file loop of `downloadFolder`: symmetric to `uploadLoop`, with
`recordBeforeDownload(localFilePath, file)`, `getFile(file, localFilePath)`,
`recordAfterDownload`.  `mapLocal` is the local path computation. -/
def downloadLoop (env : SyncEnv) (mapLocal : String → String) (cancelMsg : String) :
    Nat → List String → BatchAcc → BatchAcc
  | _, [], acc => acc
  | i, f :: rest, acc =>
    if env.cancelled i then { acc with exn := some cancelMsg }
    else
      let lf := mapLocal f
      let s1 := recordBefore env.hist .download (env.genId i) lf f acc.hist
      match env.getFile f lf with
      | .ok _ =>
          let s2 := recordAfter env.hist .download lf f s1
          downloadLoop env mapLocal cancelMsg (i + 1) rest
            { res := { acc.res with filesProcessed := acc.res.filesProcessed + 1 }
              transfers := acc.transfers ++ [(f, lf)]
              hist := s2
              exn := acc.exn }
      | .error m =>
          downloadLoop env mapLocal cancelMsg (i + 1) rest
            { res := { acc.res with errors := acc.res.errors ++ [f ++ ": " ++ m] }
              transfers := acc.transfers ++ [(f, lf)]
              hist := s1
              exn := acc.exn }

/-- Resolve a finished loop against the operation's outer `catch`: a
cancellation exception marks the whole operation failed and appends the
stringified error, keeping the counts and errors accumulated so far. -/
def finishBatch (acc : BatchAcc) : SyncResult × List (String × String) × HistoryState :=
  match acc.exn with
  | some m => (failResult acc.res.errors acc.res.filesProcessed m, acc.transfers, acc.hist)
  | none => (acc.res, acc.transfers, acc.hist)

/-- The fresh `result` object every operation starts from. -/
def initAcc (s : HistoryState) : BatchAcc :=
  { res := { success := true, filesProcessed := 0, errors := [] }
    transfers := []
    hist := s
    exn := none }

/-- `SyncManager.uploadFolder`: enumerate the local tree under
`localFolderPath` (no exclusion filter is applied) and run the upload loop
over it. -/
def uploadFolder (env : SyncEnv) (localFolderPath : String) (rp? : Option String)
    (s : HistoryState) : SyncResult × List (String × String) × HistoryState :=
  match env.activeProfile with
  | none => (failResult [] 0 "No active server profile", [], s)
  | some profile =>
    let target := rp?.getD (getRemotePath env localFolderPath profile.remotePath)
    match env.connectResult with
    | .error m => (failResult [] 0 m, [], s)
    | .ok _ =>
      let files := env.getAllFiles localFolderPath
      let mapRemote := fun f =>
        env.posixJoin target (env.sepToPosix (env.pathRelative localFolderPath f))
      finishBatch (uploadLoop env mapRemote "Upload cancelled" 0 files (initAcc s))

/-- `SyncManager.downloadFolder`: enumerate the remote tree under
`remoteFolderPath` (no exclusion filter is applied) and run the download
loop over it. -/
def downloadFolder (env : SyncEnv) (remoteFolderPath : String) (lp? : Option String)
    (s : HistoryState) : SyncResult × List (String × String) × HistoryState :=
  match env.activeProfile with
  | none => (failResult [] 0 "No active server profile", [], s)
  | some profile =>
    match lp?.map Except.ok |>.getD (getLocalPath env remoteFolderPath profile.remotePath) with
    | .error m => (failResult [] 0 m, [], s)
    | .ok target =>
      match env.connectResult with
      | .error m => (failResult [] 0 m, [], s)
      | .ok _ =>
        let files := env.listRemoteFiles remoteFolderPath
        let mapLocal := fun f =>
          env.pathJoin target (env.sepToLocal (env.posixRelative remoteFolderPath f))
        finishBatch (downloadLoop env mapLocal "Download cancelled" 0 files (initAcc s))

/-- The file set `syncAll` iterates: the recursive walk of the workspace
root, minus the paths whose workspace-relative form is excluded by the
active profile's patterns. -/
def syncAllFiles (env : SyncEnv) (root : String) (profile : ServerProfile) :
    List String :=
  (env.getAllFiles root).filter (fun f =>
    !shouldExclude env.matcher (env.pathRelative root f) profile.exclude)

/-- `SyncManager.syncAll`: require a workspace root and an active profile,
connect, enumerate and filter the local tree, and run the upload loop with
remote paths under the profile's remote root. -/
def syncAll (env : SyncEnv) (s : HistoryState) :
    SyncResult × List (String × String) × HistoryState :=
  match env.workspaceRoot with
  | none => (failResult [] 0 "No workspace folder open", [], s)
  | some root =>
    match env.activeProfile with
    | none => (failResult [] 0 "No active server profile", [], s)
    | some profile =>
      match env.connectResult with
      | .error m => (failResult [] 0 m, [], s)
      | .ok _ =>
        let files := syncAllFiles env root profile
        let mapRemote := fun f =>
          env.posixJoin profile.remotePath (env.sepToPosix (env.pathRelative root f))
        finishBatch (uploadLoop env mapRemote "Sync cancelled" 0 files (initAcc s))

/-! ## Claims: retention invariant (C1) -/

/-- The survival predicate of one whole pruning pass: an index record
survives the sequence of `deleteEntry` calls iff its id differs from every
marked entry's id. -/
def keepPred (c : RetentionConfig) (now : Int) (l : List HistoryEntry)
    (x : HistoryEntry) : Bool :=
  (entriesToDelete c now l).all (fun d => x.id != d.id)

/-! ## Claims: version-ordinal assignment (C2) -/

/-- A concrete upload entry for local path `a.txt` on profile `prod`, used
by the concrete scenarios below. -/
def ceEntry (i : Nat) (ts : Int) : HistoryEntry :=
  ⟨toString i, ts, .upload, "a.txt", "/r/a.txt", "prod", 0, ""⟩

/-- Retention configuration keeping a single version per path. -/
def ceCfg : RetentionConfig := ⟨1, 365⟩

/-- Index after the first commit of `a.txt`. -/
def ceIdx1 : List HistoryEntry := addEntry ceCfg 1 [] (ceEntry 1 1)

/-- Index after the second commit of `a.txt` (the pruning pass of this
commit deletes the first entry: two entries exceed `maxVersions = 1`). -/
def ceIdx2 : List HistoryEntry := addEntry ceCfg 2 ceIdx1 (ceEntry 2 2)

/-! ## Concrete environments for witnesses and counterexamples -/

/-- Character-level `rel.endsWith(suffix)`, built from `leadsWith` on the
reversed character lists. -/
def trailsWith (s suffix : String) : Bool :=
  leadsWith suffix.data.reverse s.data.reverse

/-- The empty history state: no pending backups, empty index, empty
snapshot area. -/
def state0 : HistoryState := ⟨[], [], ⟨[]⟩⟩

/-- A concrete test profile whose exclusion list is `["*.log"]`. -/
def profile0 : ServerProfile := ⟨"prod", "/srv", ["*.log"]⟩

/-- A concrete environment: workspace `/w` holding `a.txt` and `b.log`, a
toy glob matcher recognising the single pattern `*.log` by suffix, an
always-successful transport, no cancellation, and no pre-existing local
files (so snapshots are skipped and the history layer stays inert). -/
def env0 : SyncEnv where
  activeProfile := some profile0
  workspaceRoot := some "/w"
  confirmBeforeOverwrite := false
  userConfirms := true
  connectResult := .ok ()
  remoteExists := fun _ => false
  localExists := fun _ => false
  localContent := fun _ => ""
  localSize := fun _ => 0
  localHash := fun _ => ""
  putFile := fun _ _ => .ok ()
  getFile := fun _ _ => .ok ()
  cancelled := fun _ => false
  retention := ⟨10, 30⟩
  now := 0
  genId := fun i => toString i
  getAllFiles := fun _ => ["a.txt", "b.log"]
  listRemoteFiles := fun _ => ["ra.txt", "rb.log"]
  matcher := fun rel pat _ => pat == "*.log" && trailsWith rel ".log"
  pathRelative := fun _ p => p
  posixRelative := fun _ p => p
  pathJoin := fun a b => a ++ "/" ++ b
  posixJoin := fun a b => a ++ "/" ++ b
  baseName := fun p => p
  sepToPosix := fun p => p
  sepToLocal := fun p => p
  dateStr := fun _ => "d"

/-! ## Batch-loop characterization -/

/-- Whether a transport call succeeded. -/
def exOk : Except String Unit → Bool
  | .ok _ => true
  | .error _ => false

/-- The per-file error string a failed upload contributes, if any. -/
def uploadErrOf (env : SyncEnv) (mapR : String → String) (f : String) :
    Option String :=
  match env.putFile f (mapR f) with
  | .ok _ => none
  | .error m => some (f ++ ": " ++ m)

/-- The per-file error string a failed download contributes, if any. -/
def downloadErrOf (env : SyncEnv) (mapL : String → String) (f : String) :
    Option String :=
  match env.getFile f (mapL f) with
  | .ok _ => none
  | .error m => some (f ++ ": " ++ m)

/-- An environment in which every transport call fails. -/
def env9 : SyncEnv :=
  { env0 with
    putFile := fun _ _ => .error "boom"
    getFile := fun _ _ => .error "boom" }

/-- An environment in which exactly the first enumerated file's transport
call fails (`a.txt` locally, `ra.txt` remotely) and nothing is excluded. -/
def env5 : SyncEnv :=
  { env0 with
    putFile := fun f _ => if f == "a.txt" then .error "boom" else .ok ()
    getFile := fun f _ => if f == "ra.txt" then .error "boom" else .ok ()
    matcher := fun _ _ _ => false }

/-- A state holding exactly one pending backup, keyed for an upload of
`a.txt`. -/
def state10 : HistoryState :=
  ⟨[(backupKey "a.txt" "/srv/a.txt" .upload, ceEntry 1 1)], [], ⟨[]⟩⟩

/-- An environment with the overwrite-confirmation policy enabled, a user
who declines, and destinations that already exist. -/
def env6 : SyncEnv :=
  { env0 with
    confirmBeforeOverwrite := true
    userConfirms := false
    remoteExists := fun _ => true
    localExists := fun _ => true }

/-- `env0` stripped of its active profile. -/
def env8a : SyncEnv := { env0 with activeProfile := none }

/-- `env0` stripped of its workspace root. -/
def env8w : SyncEnv := { env0 with workspaceRoot := none }

/-- A concrete snapshot store holding one blob `a.txt_v1` for the version
directory `d_prod` (the directory `getVersionDir` derives for `ceEntry`s). -/
def store7 : BackupStore := ⟨[("d_prod", [("a.txt_v1", "old bytes")])]⟩

/-! ## Lemmas and claim theorems -/

lemma foldl_deleteById (ds : List HistoryEntry) (acc : List HistoryEntry) :
    ds.foldl deleteById acc
      = acc.filter (fun x => ds.all (fun d => x.id != d.id)) := by
  induction ds generalizing acc with
  | nil => simp
  | cons d ds ih =>
      simp only [List.foldl_cons, ih, deleteById, List.filter_filter]
      apply List.filter_congr
      intro x _
      simp [List.all_cons, Bool.and_comm]

lemma cleanup_eq_filter (c : RetentionConfig) (now : Int) (l : List HistoryEntry) :
    cleanupOldEntries c now l = l.filter (keepPred c now l) :=
  foldl_deleteById _ _

lemma mem_entriesToDelete_of_overflow {c : RetentionConfig} {now : Int}
    {l : List HistoryEntry} {p : String} {x : HistoryEntry}
    (hp : p ∈ localPaths l) (hx : x ∈ countOverflow c l p) :
    x ∈ entriesToDelete c now l :=
  List.mem_flatMap.2 ⟨p, hp, List.mem_append_left _ hx⟩

lemma mem_entriesToDelete_of_expired {c : RetentionConfig} {now : Int}
    {l : List HistoryEntry} {p : String} {x : HistoryEntry}
    (hp : p ∈ localPaths l) (hx : x ∈ ageExpired c now l p) :
    x ∈ entriesToDelete c now l :=
  List.mem_flatMap.2 ⟨p, hp, List.mem_append_right _ hx⟩

lemma keep_false_of_deleted {c : RetentionConfig} {now : Int}
    {l : List HistoryEntry} {x : HistoryEntry}
    (hx : x ∈ entriesToDelete c now l) :
    keepPred c now l x = false := by
  cases hkeep : keepPred c now l x
  · rfl
  · exfalso
    rw [keepPred, List.all_eq_true] at hkeep
    have hxx := hkeep x hx
    simp at hxx

lemma groupFor_filter (l : List HistoryEntry) (q : HistoryEntry → Bool) (p : String) :
    groupFor (l.filter q) p = (groupFor l p).filter q := by
  simp only [groupFor]
  exact List.filter_comm _ _ _

lemma mem_localPaths_of_mem {l : List HistoryEntry} {x : HistoryEntry}
    (hx : x ∈ l) : x.localPath ∈ localPaths l :=
  List.mem_dedup.2 (List.mem_map.2 ⟨x, hx, rfl⟩)

lemma sortedGroup_perm (l : List HistoryEntry) (p : String) :
    List.Perm (sortedGroup l p) (groupFor l p) :=
  List.perm_insertionSort tsDesc (groupFor l p)

lemma cleanup_count_le (c : RetentionConfig) (now : Int)
    (l : List HistoryEntry) (p : String) :
    countForPath (cleanupOldEntries c now l) p ≤ c.maxVersions := by
  rw [countForPath, cleanup_eq_filter, groupFor_filter]
  have hperm : List.Perm ((groupFor l p).filter (keepPred c now l))
      ((sortedGroup l p).filter (keepPred c now l)) :=
    ((sortedGroup_perm l p).symm).filter _
  rw [hperm.length_eq]
  have hsplit := List.take_append_drop c.maxVersions (sortedGroup l p)
  have hdropnil : ((sortedGroup l p).drop c.maxVersions).filter (keepPred c now l) = [] := by
    rw [List.filter_eq_nil_iff]
    intro x hx
    have hlen : c.maxVersions < (sortedGroup l p).length := by
      by_contra hle
      push_neg at hle
      rw [List.drop_eq_nil_of_le hle] at hx
      exact absurd hx (List.not_mem_nil x)
    have hover : x ∈ countOverflow c l p := by
      rw [countOverflow]
      simp only [if_pos hlen]
      exact hx
    have hxg : x ∈ groupFor l p :=
      (sortedGroup_perm l p).mem_iff.1 (List.mem_of_mem_drop hx)
    have hxl : x ∈ l := (List.mem_filter.1 hxg).1
    have hxp : x.localPath = p := by
      have := (List.mem_filter.1 hxg).2
      simpa using this
    have hp : p ∈ localPaths l := hxp ▸ mem_localPaths_of_mem hxl
    have hdel : x ∈ entriesToDelete c now l :=
      mem_entriesToDelete_of_overflow hp hover
    simp [keep_false_of_deleted hdel]
  calc ((sortedGroup l p).filter (keepPred c now l)).length
      = (((sortedGroup l p).take c.maxVersions).filter (keepPred c now l)).length
        + (((sortedGroup l p).drop c.maxVersions).filter (keepPred c now l)).length := by
        conv_lhs => rw [← hsplit]
        rw [List.filter_append, List.length_append]
    _ = (((sortedGroup l p).take c.maxVersions).filter (keepPred c now l)).length := by
        rw [hdropnil]; simp
    _ ≤ ((sortedGroup l p).take c.maxVersions).length := List.length_filter_le _ _
    _ ≤ c.maxVersions := List.length_take_le _ _

lemma cleanup_age_le (c : RetentionConfig) (now : Int) (l : List HistoryEntry) :
    ∀ x ∈ cleanupOldEntries c now l, now - x.timestamp ≤ c.maxAgeMs := by
  intro x hx
  rw [cleanup_eq_filter, List.mem_filter] at hx
  obtain ⟨hxl, hkeep⟩ := hx
  by_contra hage
  push_neg at hage
  have hg : x ∈ groupFor l x.localPath := List.mem_filter.2 ⟨hxl, by simp⟩
  have hs : x ∈ sortedGroup l x.localPath := (sortedGroup_perm l _).mem_iff.2 hg
  have hexp : x ∈ ageExpired c now l x.localPath :=
    List.mem_filter.2 ⟨hs, by simpa using hage⟩
  have hdel : x ∈ entriesToDelete c now l :=
    mem_entriesToDelete_of_expired (mem_localPaths_of_mem hxl) hexp
  rw [keep_false_of_deleted hdel] at hkeep
  exact Bool.noConfusion hkeep

/-- C1: Retention invariant — after every committed entry addition
(`addEntry` followed by its pruning pass), for every local path `p` the
number of entries retained in the history index for `p` is at most the
configured max version count, and no retained entry is older than the
configured max age in days; entries violating either cap are deleted from
the index. -/
theorem c1_retention_invariant (c : RetentionConfig) (now : Int)
    (idx : List HistoryEntry) (e : HistoryEntry) (p : String) :
    countForPath (addEntry c now idx e) p ≤ c.maxVersions ∧
      ∀ x ∈ addEntry c now idx e, now - x.timestamp ≤ c.maxAgeMs :=
  ⟨cleanup_count_le c now (idx ++ [e]) p, cleanup_age_le c now (idx ++ [e])⟩

/-- C2 counterexample: with `maxVersions = 1`, the second snapshot of the
triple (`a.txt`, upload, `prod`) is assigned ordinal 2; committing it prunes
the first index entry, after which the third snapshot of the same triple is
assigned ordinal 2 again — the ordinal is reused and the sequence is not
strictly increasing, because `generateVersionSuffix` counts *currently*
indexed entries and retention pruning removes index records. -/
theorem c2_counterexample :
    generateVersionSuffix ceIdx1 "a.txt" (ceEntry 2 2) = 2 ∧
    generateVersionSuffix ceIdx2 "a.txt" (ceEntry 3 3) = 2 ∧
    ceEntry 1 1 ∈ ceIdx1 ∧ ceEntry 1 1 ∉ ceIdx2 := by decide

/-- C2 (amended): the ordinal assigned to a new snapshot of a (local path,
operation, profile) triple equals 1 + the count of currently indexed entries
for that exact triple (independent of any filesystem scan, hence stable
under deletion of blobs alone); across commits whose pruning passes delete
no *index record* of the triple, the ordinals strictly increase.  Pruning
that removes index records of the triple can make ordinals reused. -/
theorem c2_ordinal_amended (c : RetentionConfig) (now : Int)
    (idx : List HistoryEntry) (e e' : HistoryEntry) (lp : String)
    (hkept : (tripleEntries (addEntry c now idx e) lp e').length
      = (tripleEntries idx lp e').length + 1) :
    generateVersionSuffix idx lp e' = (tripleEntries idx lp e').length + 1 ∧
    generateVersionSuffix idx lp e'
      < generateVersionSuffix (addEntry c now idx e) lp e' := by
  constructor
  · rfl
  · rw [generateVersionSuffix, generateVersionSuffix, hkept]
    omega

/-- Witness for C2 (amended): with `maxVersions = 10` the pruning pass of
the first commit keeps the committed entry, and the ordinal for the next
snapshot of the triple strictly increases (from 1 to 2). -/
theorem c2_ordinal_amended_witness :
    (tripleEntries (addEntry ⟨10, 365⟩ 1 [] (ceEntry 1 1)) "a.txt" (ceEntry 2 2)).length
      = (tripleEntries [] "a.txt" (ceEntry 2 2)).length + 1 ∧
    generateVersionSuffix [] "a.txt" (ceEntry 2 2)
      < generateVersionSuffix (addEntry ⟨10, 365⟩ 1 [] (ceEntry 1 1)) "a.txt" (ceEntry 2 2) :=
  ⟨by decide,
    (c2_ordinal_amended ⟨10, 365⟩ 1 [] (ceEntry 1 1) (ceEntry 2 2) "a.txt" (by decide)).2⟩

lemma uploadLoop_spec (env : SyncEnv) (mapR : String → String) (msg : String)
    (hnc : ∀ i, env.cancelled i = false) :
    ∀ (files : List String) (i : Nat) (acc : BatchAcc),
      (uploadLoop env mapR msg i files acc).exn = acc.exn ∧
      (uploadLoop env mapR msg i files acc).res.success = acc.res.success ∧
      (uploadLoop env mapR msg i files acc).res.filesProcessed
        = acc.res.filesProcessed
          + files.countP (fun f => exOk (env.putFile f (mapR f))) ∧
      (uploadLoop env mapR msg i files acc).res.errors
        = acc.res.errors ++ files.filterMap (uploadErrOf env mapR) ∧
      (uploadLoop env mapR msg i files acc).transfers
        = acc.transfers ++ files.map (fun f => (f, mapR f)) := by
  intro files
  induction files with
  | nil => intro i acc; simp [uploadLoop]
  | cons f rest ih =>
      intro i acc
      rw [uploadLoop]
      simp only [hnc i, Bool.false_eq_true, if_false]
      cases hput : env.putFile f (mapR f) with
      | ok u =>
          obtain ⟨h1, h2, h3, h4, h5⟩ := ih (i + 1)
            { res := { acc.res with filesProcessed := acc.res.filesProcessed + 1 }
              transfers := acc.transfers ++ [(f, mapR f)]
              hist := recordAfter env.hist .upload f (mapR f)
                (recordBefore env.hist .upload (env.genId i) f (mapR f) acc.hist)
              exn := acc.exn }
          refine ⟨h1, h2, ?_, ?_, ?_⟩
          · rw [h3]
            simp [List.countP_cons, exOk, hput]
            omega
          · rw [h4]
            simp [List.filterMap_cons, uploadErrOf, hput]
          · rw [h5]
            simp [List.append_assoc]
      | error m =>
          obtain ⟨h1, h2, h3, h4, h5⟩ := ih (i + 1)
            { res := { acc.res with errors := acc.res.errors ++ [f ++ ": " ++ m] }
              transfers := acc.transfers ++ [(f, mapR f)]
              hist := recordBefore env.hist .upload (env.genId i) f (mapR f) acc.hist
              exn := acc.exn }
          refine ⟨h1, h2, ?_, ?_, ?_⟩
          · rw [h3]
            simp [List.countP_cons, exOk, hput]
          · rw [h4]
            simp [List.filterMap_cons, uploadErrOf, hput, List.append_assoc]
          · rw [h5]
            simp [List.append_assoc]

lemma downloadLoop_spec (env : SyncEnv) (mapL : String → String) (msg : String)
    (hnc : ∀ i, env.cancelled i = false) :
    ∀ (files : List String) (i : Nat) (acc : BatchAcc),
      (downloadLoop env mapL msg i files acc).exn = acc.exn ∧
      (downloadLoop env mapL msg i files acc).res.success = acc.res.success ∧
      (downloadLoop env mapL msg i files acc).res.filesProcessed
        = acc.res.filesProcessed
          + files.countP (fun f => exOk (env.getFile f (mapL f))) ∧
      (downloadLoop env mapL msg i files acc).res.errors
        = acc.res.errors ++ files.filterMap (downloadErrOf env mapL) ∧
      (downloadLoop env mapL msg i files acc).transfers
        = acc.transfers ++ files.map (fun f => (f, mapL f)) := by
  intro files
  induction files with
  | nil => intro i acc; simp [downloadLoop]
  | cons f rest ih =>
      intro i acc
      rw [downloadLoop]
      simp only [hnc i, Bool.false_eq_true, if_false]
      cases hget : env.getFile f (mapL f) with
      | ok u =>
          obtain ⟨h1, h2, h3, h4, h5⟩ := ih (i + 1)
            { res := { acc.res with filesProcessed := acc.res.filesProcessed + 1 }
              transfers := acc.transfers ++ [(f, mapL f)]
              hist := recordAfter env.hist .download (mapL f) f
                (recordBefore env.hist .download (env.genId i) (mapL f) f acc.hist)
              exn := acc.exn }
          refine ⟨h1, h2, ?_, ?_, ?_⟩
          · rw [h3]
            simp [List.countP_cons, exOk, hget]
            omega
          · rw [h4]
            simp [List.filterMap_cons, downloadErrOf, hget]
          · rw [h5]
            simp [List.append_assoc]
      | error m =>
          obtain ⟨h1, h2, h3, h4, h5⟩ := ih (i + 1)
            { res := { acc.res with errors := acc.res.errors ++ [f ++ ": " ++ m] }
              transfers := acc.transfers ++ [(f, mapL f)]
              hist := recordBefore env.hist .download (env.genId i) (mapL f) f acc.hist
              exn := acc.exn }
          refine ⟨h1, h2, ?_, ?_, ?_⟩
          · rw [h3]
            simp [List.countP_cons, exOk, hget]
          · rw [h4]
            simp [List.filterMap_cons, downloadErrOf, hget, List.append_assoc]
          · rw [h5]
            simp [List.append_assoc]

/-! ## Claim C9: batch success flag insensitive to per-file errors -/

lemma finishBatch_success (acc : BatchAcc) (h1 : acc.exn = none)
    (h2 : acc.res.success = true) : (finishBatch acc).1.success = true := by
  simp [finishBatch, h1, h2]

/-- C9 (implicit): for every bulk operation (`uploadFolder`,
`downloadFolder`, `syncAll`), when the preconditions hold, the connection
succeeds and the token is never cancelled, the returned `SyncResult.success`
is `true` — regardless of the per-file transport outcomes, which only
populate the error list and never clear the success flag. -/
theorem c9_batch_success_insensitive (env : SyncEnv) (profile : ServerProfile)
    (root fld rfld : String) (rp? lp? : Option String) (s : HistoryState)
    (hprof : env.activeProfile = some profile)
    (hroot : env.workspaceRoot = some root)
    (hconn : env.connectResult = Except.ok ())
    (hnc : ∀ i, env.cancelled i = false) :
    (uploadFolder env fld rp? s).1.success = true ∧
    (downloadFolder env rfld lp? s).1.success = true ∧
    (syncAll env s).1.success = true := by
  refine ⟨?_, ?_, ?_⟩
  · rw [uploadFolder]
    simp only [hprof, hconn]
    apply finishBatch_success
    · exact (uploadLoop_spec env _ _ hnc _ _ _).1
    · exact (uploadLoop_spec env _ _ hnc _ _ _).2.1
  · rw [downloadFolder]
    simp only [hprof]
    have hloc : getLocalPath env rfld profile.remotePath
        = Except.ok (env.pathJoin root
            (env.sepToLocal (env.posixRelative profile.remotePath rfld))) := by
      rw [getLocalPath, hroot]
    cases lp? with
    | none =>
        simp only [Option.map_none', Option.getD_none, hloc, hconn]
        apply finishBatch_success
        · exact (downloadLoop_spec env _ _ hnc _ _ _).1
        · exact (downloadLoop_spec env _ _ hnc _ _ _).2.1
    | some lcl =>
        simp only [Option.map_some', Option.getD_some, hconn]
        apply finishBatch_success
        · exact (downloadLoop_spec env _ _ hnc _ _ _).1
        · exact (downloadLoop_spec env _ _ hnc _ _ _).2.1
  · rw [syncAll]
    simp only [hroot, hprof, hconn]
    apply finishBatch_success
    · exact (uploadLoop_spec env _ _ hnc _ _ _).1
    · exact (uploadLoop_spec env _ _ hnc _ _ _).2.1

/-- Witness for C9: in a concrete environment whose every transport call
fails, all three bulk operations still report `success = true`. -/
theorem c9_batch_success_insensitive_witness :
    env9.activeProfile = some profile0 ∧
    env9.workspaceRoot = some "/w" ∧
    env9.connectResult = Except.ok () ∧
    ((uploadFolder env9 "/w" none state0).1.success = true ∧
      (downloadFolder env9 "/r" none state0).1.success = true ∧
      (syncAll env9 state0).1.success = true) :=
  ⟨rfl, rfl, rfl,
    c9_batch_success_insensitive env9 profile0 "/w" "/w" "/r" none none state0
      rfl rfl rfl (fun _ => rfl)⟩

/-! ## Claim C5: partial-failure isolation -/

lemma finishBatch_eq (acc : BatchAcc) (h1 : acc.exn = none) :
    finishBatch acc = (acc.res, acc.transfers, acc.hist) := by
  simp [finishBatch, h1]

lemma countP_all_but_one {α : Type} (p : α → Bool) (files : List α) :
    ∀ (k : Nat) (hk : k < files.length), files.Nodup →
      p (files.get ⟨k, hk⟩) = false →
      (∀ f ∈ files, f ≠ files.get ⟨k, hk⟩ → p f = true) →
      files.countP p = files.length - 1 := by
  induction files with
  | nil => intro k hk; simp at hk
  | cons a rest ih =>
      intro k hk hnd hfk hother
      rcases List.nodup_cons.1 hnd with ⟨hna, hndr⟩
      cases k with
      | zero =>
          have hpa : p a = false := hfk
          have hall : ∀ f ∈ rest, p f = true := by
            intro f hf
            refine hother f (List.mem_cons_of_mem a hf) ?_
            intro h
            rw [h] at hf
            exact hna hf
          rw [List.countP_cons, hpa, List.countP_eq_length.2 hall]
          simp
      | succ k =>
          have hk' : k < rest.length := by simpa using hk
          have hamem : rest.get ⟨k, hk'⟩ ∈ rest := rest.get_mem k hk'
          have hane : a ≠ rest.get ⟨k, hk'⟩ := fun h => hna (h ▸ hamem)
          have hpa : p a = true := hother a (List.mem_cons_self a rest) hane
          rw [List.countP_cons, hpa]
          rw [ih k hk' hndr hfk
            (fun f hf hne => hother f (List.mem_cons_of_mem a hf) hne)]
          simp only [List.length_cons, if_true]
          omega

lemma filterMap_all_but_one {α β : Type} (g : α → Option β) (v : β) (files : List α) :
    ∀ (k : Nat) (hk : k < files.length), files.Nodup →
      g (files.get ⟨k, hk⟩) = some v →
      (∀ f ∈ files, f ≠ files.get ⟨k, hk⟩ → g f = none) →
      files.filterMap g = [v] := by
  induction files with
  | nil => intro k hk; simp at hk
  | cons a rest ih =>
      intro k hk hnd hgk hother
      rcases List.nodup_cons.1 hnd with ⟨hna, hndr⟩
      cases k with
      | zero =>
          have hga : g a = some v := hgk
          have hrest : rest.filterMap g = [] := by
            rw [List.filterMap_eq_nil_iff]
            intro f hf
            refine hother f (List.mem_cons_of_mem a hf) ?_
            intro h
            rw [h] at hf
            exact hna hf
          rw [List.filterMap_cons]
          simp [hga, hrest]
      | succ k =>
          have hk' : k < rest.length := by simpa using hk
          have hamem : rest.get ⟨k, hk'⟩ ∈ rest := rest.get_mem k hk'
          have hane : a ≠ rest.get ⟨k, hk'⟩ := fun h => hna (h ▸ hamem)
          have hga : g a = none := hother a (List.mem_cons_self a rest) hane
          rw [List.filterMap_cons]
          simp only [hga]
          exact ih k hk' hndr hgk
            (fun f hf hne => hother f (List.mem_cons_of_mem a hf) hne)

lemma uploadFolder_unfold (env : SyncEnv) (profile : ServerProfile)
    (fld : String) (rp? : Option String) (s : HistoryState)
    (hprof : env.activeProfile = some profile)
    (hconn : env.connectResult = Except.ok ()) :
    uploadFolder env fld rp? s
      = finishBatch (uploadLoop env
          (fun f => env.posixJoin (rp?.getD (getRemotePath env fld profile.remotePath))
            (env.sepToPosix (env.pathRelative fld f)))
          "Upload cancelled" 0 (env.getAllFiles fld) (initAcc s)) := by
  rw [uploadFolder]
  simp only [hprof, hconn]

lemma downloadFolder_unfold (env : SyncEnv) (profile : ServerProfile)
    (root rfld : String) (lp? : Option String) (s : HistoryState)
    (hprof : env.activeProfile = some profile)
    (hroot : env.workspaceRoot = some root)
    (hconn : env.connectResult = Except.ok ()) :
    downloadFolder env rfld lp? s
      = finishBatch (downloadLoop env
          (fun f => env.pathJoin
            (lp?.getD (env.pathJoin root
              (env.sepToLocal (env.posixRelative profile.remotePath rfld))))
            (env.sepToLocal (env.posixRelative rfld f)))
          "Download cancelled" 0 (env.listRemoteFiles rfld) (initAcc s)) := by
  rw [downloadFolder]
  simp only [hprof]
  have hloc : getLocalPath env rfld profile.remotePath
      = Except.ok (env.pathJoin root
          (env.sepToLocal (env.posixRelative profile.remotePath rfld))) := by
    rw [getLocalPath, hroot]
  cases lp? with
  | none => simp only [Option.map_none', Option.getD_none, hloc, hconn]
  | some lcl => simp only [Option.map_some', Option.getD_some, Option.getD_some, hconn]

lemma syncAll_unfold (env : SyncEnv) (profile : ServerProfile)
    (root : String) (s : HistoryState)
    (hprof : env.activeProfile = some profile)
    (hroot : env.workspaceRoot = some root)
    (hconn : env.connectResult = Except.ok ()) :
    syncAll env s
      = finishBatch (uploadLoop env
          (fun f => env.posixJoin profile.remotePath
            (env.sepToPosix (env.pathRelative root f)))
          "Sync cancelled" 0 (syncAllFiles env root profile) (initAcc s)) := by
  rw [syncAll]
  simp only [hroot, hprof, hconn]

/-- C5: Partial-failure isolation — for each bulk operation over its
enumerated file set of size N in which exactly the k-th file's transport
call fails (and the token is never cancelled), the returned result counts
N-1 processed files and exactly one error string referencing file k, and
every file after k is still processed (appears among the transport calls
made). -/
theorem c5_batch_isolation (env : SyncEnv) (profile : ServerProfile)
    (root fld rfld : String) (rp? lp? : Option String) (s : HistoryState)
    (ku kd ks : Nat) (mu md ms : String)
    (hprof : env.activeProfile = some profile)
    (hroot : env.workspaceRoot = some root)
    (hconn : env.connectResult = Except.ok ())
    (hnc : ∀ i, env.cancelled i = false)
    (hkU : ku < (env.getAllFiles fld).length)
    (hndU : (env.getAllFiles fld).Nodup)
    (hfailU : ∀ r, env.putFile ((env.getAllFiles fld).get ⟨ku, hkU⟩) r
      = Except.error mu)
    (hokU : ∀ f ∈ env.getAllFiles fld,
      f ≠ (env.getAllFiles fld).get ⟨ku, hkU⟩ → ∀ r, env.putFile f r = Except.ok ())
    (hkD : kd < (env.listRemoteFiles rfld).length)
    (hndD : (env.listRemoteFiles rfld).Nodup)
    (hfailD : ∀ r, env.getFile ((env.listRemoteFiles rfld).get ⟨kd, hkD⟩) r
      = Except.error md)
    (hokD : ∀ f ∈ env.listRemoteFiles rfld,
      f ≠ (env.listRemoteFiles rfld).get ⟨kd, hkD⟩ → ∀ r, env.getFile f r = Except.ok ())
    (hkS : ks < (syncAllFiles env root profile).length)
    (hndS : (syncAllFiles env root profile).Nodup)
    (hfailS : ∀ r, env.putFile ((syncAllFiles env root profile).get ⟨ks, hkS⟩) r
      = Except.error ms)
    (hokS : ∀ f ∈ syncAllFiles env root profile,
      f ≠ (syncAllFiles env root profile).get ⟨ks, hkS⟩ →
        ∀ r, env.putFile f r = Except.ok ()) :
    ((uploadFolder env fld rp? s).1.filesProcessed
        = (env.getAllFiles fld).length - 1 ∧
      (uploadFolder env fld rp? s).1.errors
        = [(env.getAllFiles fld).get ⟨ku, hkU⟩ ++ ": " ++ mu] ∧
      ∀ j (hj : j < (env.getAllFiles fld).length), ku < j →
        (env.getAllFiles fld).get ⟨j, hj⟩
          ∈ ((uploadFolder env fld rp? s).2.1).map Prod.fst) ∧
    ((downloadFolder env rfld lp? s).1.filesProcessed
        = (env.listRemoteFiles rfld).length - 1 ∧
      (downloadFolder env rfld lp? s).1.errors
        = [(env.listRemoteFiles rfld).get ⟨kd, hkD⟩ ++ ": " ++ md] ∧
      ∀ j (hj : j < (env.listRemoteFiles rfld).length), kd < j →
        (env.listRemoteFiles rfld).get ⟨j, hj⟩
          ∈ ((downloadFolder env rfld lp? s).2.1).map Prod.fst) ∧
    ((syncAll env s).1.filesProcessed
        = (syncAllFiles env root profile).length - 1 ∧
      (syncAll env s).1.errors
        = [(syncAllFiles env root profile).get ⟨ks, hkS⟩ ++ ": " ++ ms] ∧
      ∀ j (hj : j < (syncAllFiles env root profile).length), ks < j →
        (syncAllFiles env root profile).get ⟨j, hj⟩
          ∈ ((syncAll env s).2.1).map Prod.fst) := by
  refine ⟨?_, ?_, ?_⟩
  · rw [uploadFolder_unfold env profile fld rp? s hprof hconn]
    obtain ⟨h1, -, h3, h4, h5⟩ := uploadLoop_spec env
      (fun f => env.posixJoin (rp?.getD (getRemotePath env fld profile.remotePath))
        (env.sepToPosix (env.pathRelative fld f)))
      "Upload cancelled" hnc (env.getAllFiles fld) 0 (initAcc s)
    rw [finishBatch_eq _ h1]
    refine ⟨?_, ?_, ?_⟩
    · show (uploadLoop _ _ _ _ _ _).res.filesProcessed = _
      rw [h3]
      simp only [initAcc, Nat.zero_add]
      exact countP_all_but_one _ (env.getAllFiles fld) ku hkU hndU
        (by rw [hfailU]; rfl)
        (fun f hf hne => by rw [hokU f hf hne]; rfl)
    · show (uploadLoop _ _ _ _ _ _).res.errors = _
      rw [h4]
      simp only [initAcc, List.nil_append]
      exact filterMap_all_but_one _ _ (env.getAllFiles fld) ku hkU hndU
        (by simp only [uploadErrOf]; rw [hfailU])
        (fun f hf hne => by simp [uploadErrOf, hokU f hf hne])
    · intro j hj _
      show (env.getAllFiles fld).get ⟨j, hj⟩
        ∈ ((uploadLoop _ _ _ _ _ _).transfers).map Prod.fst
      rw [h5]
      simp only [initAcc, List.nil_append, List.map_map]
      have : (Prod.fst ∘ fun f => (f,
          env.posixJoin (rp?.getD (getRemotePath env fld profile.remotePath))
            (env.sepToPosix (env.pathRelative fld f)))) = id := rfl
      rw [this, List.map_id]
      exact (env.getAllFiles fld).get_mem j hj
  · rw [downloadFolder_unfold env profile root rfld lp? s hprof hroot hconn]
    obtain ⟨h1, -, h3, h4, h5⟩ := downloadLoop_spec env
      (fun f => env.pathJoin
        (lp?.getD (env.pathJoin root
          (env.sepToLocal (env.posixRelative profile.remotePath rfld))))
        (env.sepToLocal (env.posixRelative rfld f)))
      "Download cancelled" hnc (env.listRemoteFiles rfld) 0 (initAcc s)
    rw [finishBatch_eq _ h1]
    refine ⟨?_, ?_, ?_⟩
    · show (downloadLoop _ _ _ _ _ _).res.filesProcessed = _
      rw [h3]
      simp only [initAcc, Nat.zero_add]
      exact countP_all_but_one _ (env.listRemoteFiles rfld) kd hkD hndD
        (by rw [hfailD]; rfl)
        (fun f hf hne => by rw [hokD f hf hne]; rfl)
    · show (downloadLoop _ _ _ _ _ _).res.errors = _
      rw [h4]
      simp only [initAcc, List.nil_append]
      exact filterMap_all_but_one _ _ (env.listRemoteFiles rfld) kd hkD hndD
        (by simp only [downloadErrOf]; rw [hfailD])
        (fun f hf hne => by simp [downloadErrOf, hokD f hf hne])
    · intro j hj _
      show (env.listRemoteFiles rfld).get ⟨j, hj⟩
        ∈ ((downloadLoop _ _ _ _ _ _).transfers).map Prod.fst
      rw [h5]
      simp only [initAcc, List.nil_append, List.map_map]
      have : (Prod.fst ∘ fun f => (f,
          env.pathJoin
            (lp?.getD (env.pathJoin root
              (env.sepToLocal (env.posixRelative profile.remotePath rfld))))
            (env.sepToLocal (env.posixRelative rfld f)))) = id := rfl
      rw [this, List.map_id]
      exact (env.listRemoteFiles rfld).get_mem j hj
  · rw [syncAll_unfold env profile root s hprof hroot hconn]
    obtain ⟨h1, -, h3, h4, h5⟩ := uploadLoop_spec env
      (fun f => env.posixJoin profile.remotePath
        (env.sepToPosix (env.pathRelative root f)))
      "Sync cancelled" hnc (syncAllFiles env root profile) 0 (initAcc s)
    rw [finishBatch_eq _ h1]
    refine ⟨?_, ?_, ?_⟩
    · show (uploadLoop _ _ _ _ _ _).res.filesProcessed = _
      rw [h3]
      simp only [initAcc, Nat.zero_add]
      exact countP_all_but_one _ (syncAllFiles env root profile) ks hkS hndS
        (by rw [hfailS]; rfl)
        (fun f hf hne => by rw [hokS f hf hne]; rfl)
    · show (uploadLoop _ _ _ _ _ _).res.errors = _
      rw [h4]
      simp only [initAcc, List.nil_append]
      exact filterMap_all_but_one _ _ (syncAllFiles env root profile) ks hkS hndS
        (by simp only [uploadErrOf]; rw [hfailS])
        (fun f hf hne => by simp [uploadErrOf, hokS f hf hne])
    · intro j hj _
      show (syncAllFiles env root profile).get ⟨j, hj⟩
        ∈ ((uploadLoop _ _ _ _ _ _).transfers).map Prod.fst
      rw [h5]
      simp only [initAcc, List.nil_append, List.map_map]
      have : (Prod.fst ∘ fun f => (f,
          env.posixJoin profile.remotePath
            (env.sepToPosix (env.pathRelative root f)))) = id := rfl
      rw [this, List.map_id]
      exact (syncAllFiles env root profile).get_mem j hj

/-- Witness for C5: over the two-file sets of `env5`, each bulk operation
reports one processed file and the single error referencing the failed
first file, and the second file is still processed. -/
theorem c5_batch_isolation_witness :
    (uploadFolder env5 "/w" none state0).1.filesProcessed
        = (env5.getAllFiles "/w").length - 1 ∧
    (uploadFolder env5 "/w" none state0).1.errors
        = [(env5.getAllFiles "/w").get ⟨0, by decide⟩ ++ ": " ++ "boom"] ∧
    (env5.getAllFiles "/w").get ⟨1, by decide⟩
        ∈ ((uploadFolder env5 "/w" none state0).2.1).map Prod.fst ∧
    (downloadFolder env5 "/r" none state0).1.filesProcessed
        = (env5.listRemoteFiles "/r").length - 1 ∧
    (syncAll env5 state0).1.errors
        = [(syncAllFiles env5 "/w" profile0).get ⟨0, by decide⟩ ++ ": " ++ "boom"] := by
  have hS : syncAllFiles env5 "/w" profile0 = ["a.txt", "b.log"] := by decide
  have hG : env5.getAllFiles "/w" = ["a.txt", "b.log"] := rfl
  have hR : env5.listRemoteFiles "/r" = ["ra.txt", "rb.log"] := rfl
  have h := c5_batch_isolation env5 profile0 "/w" "/w" "/r" none none state0
    0 0 0 "boom" "boom" "boom" rfl rfl rfl (fun _ => rfl)
    (by decide) (by decide)
    (fun _ => rfl)
    (by
      intro f hf hne r
      rw [hG] at hf
      simp at hf
      rcases hf with rfl | rfl
      · exact absurd rfl hne
      · rfl)
    (by decide) (by decide)
    (fun _ => rfl)
    (by
      intro f hf hne r
      rw [hR] at hf
      simp at hf
      rcases hf with rfl | rfl
      · exact absurd rfl hne
      · rfl)
    (by rw [hS]; decide) (by rw [hS]; decide)
    (fun _ => rfl)
    (by
      intro f hf hne r
      rw [hS] at hf
      simp at hf
      rcases hf with rfl | rfl
      · exact absurd rfl hne
      · rfl)
  exact ⟨h.1.1, h.1.2.1, h.1.2.2 1 (by decide) (by decide),
    h.2.1.1, h.2.2.2.1⟩

/-! ## Claim C3: exclusion in bulk operations -/

lemma cleanup_subset {c : RetentionConfig} {now : Int} {l : List HistoryEntry}
    {x : HistoryEntry} (hx : x ∈ cleanupOldEntries c now l) : x ∈ l := by
  rw [cleanup_eq_filter] at hx
  exact (List.mem_filter.1 hx).1

lemma addEntry_subset {c : RetentionConfig} {now : Int} {idx : List HistoryEntry}
    {e x : HistoryEntry} (hx : x ∈ addEntry c now idx e) : x ∈ idx ∨ x = e := by
  have hx' := cleanup_subset hx
  rcases List.mem_append.1 hx' with h | h
  · exact Or.inl h
  · right
    simpa using h

lemma backupFile_localPath (env : HistoryEnv) (idx : List HistoryEntry)
    (st : BackupStore) (lp : String) (entry : HistoryEntry) :
    (backupFile env idx st lp entry).1.localPath = entry.localPath := by
  rw [backupFile]
  split <;> rfl

lemma recordBefore_pending (env : HistoryEnv) (op : Op) (id lp rp : String)
    (s : HistoryState) :
    ∀ kv ∈ (recordBefore env op id lp rp s).pending,
      kv ∈ s.pending ∨ kv.2.localPath = lp := by
  intro kv hkv
  rw [recordBefore] at hkv
  cases hprof : env.activeProfile with
  | none => rw [hprof] at hkv; exact Or.inl hkv
  | some profile =>
      rw [hprof] at hkv
      cases hex : env.localExists lp with
      | false => simp only [hex, Bool.false_eq_true, if_false] at hkv; exact Or.inl hkv
      | true =>
          simp only [hex, if_true] at hkv
          rw [pendingSet] at hkv
          rcases List.mem_cons.1 hkv with h | h
          · right
            rw [h]
            exact backupFile_localPath env s.index s.store lp _
          · exact Or.inl (List.mem_of_mem_filter h)

lemma recordBefore_index (env : HistoryEnv) (op : Op) (id lp rp : String)
    (s : HistoryState) :
    (recordBefore env op id lp rp s).index = s.index := by
  rw [recordBefore]
  cases env.activeProfile with
  | none => rfl
  | some profile =>
      dsimp only
      split <;> rfl

lemma pendingGet_mem {p : Pending} {k : String} {e : HistoryEntry}
    (h : pendingGet p k = some e) : ∃ kv ∈ p, kv.2 = e := by
  rw [pendingGet] at h
  cases hf : List.find? (fun x => x.1 == k) p with
  | none => rw [hf] at h; exact absurd h (by simp)
  | some kv =>
      rw [hf] at h
      exact ⟨kv, List.mem_of_find?_eq_some hf, Option.some.inj h⟩

lemma recordAfter_invariant (P : String → Prop) (env : HistoryEnv) (op : Op)
    (lp rp : String) (s : HistoryState) (base : List HistoryEntry)
    (hp : ∀ kv ∈ s.pending, P kv.2.localPath)
    (hi : ∀ x ∈ s.index, x ∈ base ∨ P x.localPath) :
    (∀ kv ∈ (recordAfter env op lp rp s).pending, P kv.2.localPath) ∧
    (∀ x ∈ (recordAfter env op lp rp s).index, x ∈ base ∨ P x.localPath) := by
  rw [recordAfter]
  cases hget : pendingGet s.pending (backupKey lp rp op) with
  | none => exact ⟨hp, hi⟩
  | some e =>
      dsimp only
      constructor
      · intro kv hkv
        exact hp kv (List.mem_of_mem_filter hkv)
      · intro x hx
        rcases addEntry_subset hx with h | h
        · exact hi x h
        · right
          obtain ⟨kv, hkvmem, hkv2⟩ := pendingGet_mem hget
          rw [h, ← hkv2]
          exact hp kv hkvmem

lemma uploadLoop_hist_invariant (env : SyncEnv) (mapR : String → String)
    (msg : String) (P : String → Prop) (base : List HistoryEntry) :
    ∀ (files : List String) (i : Nat) (acc : BatchAcc),
      (∀ f ∈ files, P f) →
      (∀ kv ∈ acc.hist.pending, P kv.2.localPath) →
      (∀ x ∈ acc.hist.index, x ∈ base ∨ P x.localPath) →
      (∀ kv ∈ (uploadLoop env mapR msg i files acc).hist.pending, P kv.2.localPath) ∧
      (∀ x ∈ (uploadLoop env mapR msg i files acc).hist.index,
        x ∈ base ∨ P x.localPath) := by
  intro files
  induction files with
  | nil => intro i acc _ hp hi; exact ⟨hp, hi⟩
  | cons f rest ih =>
      intro i acc hP hp hi
      rw [uploadLoop]
      cases hc : env.cancelled i with
      | true => simp only [hc, if_true]; exact ⟨hp, hi⟩
      | false =>
          simp only [hc, Bool.false_eq_true, if_false]
          have hPf : P f := hP f (List.mem_cons_self f rest)
          have hs1p : ∀ kv ∈ (recordBefore env.hist .upload (env.genId i) f
              (mapR f) acc.hist).pending, P kv.2.localPath := by
            intro kv hkv
            rcases recordBefore_pending env.hist .upload (env.genId i) f (mapR f)
              acc.hist kv hkv with h | h
            · exact hp kv h
            · rw [h]; exact hPf
          have hs1i : ∀ x ∈ (recordBefore env.hist .upload (env.genId i) f
              (mapR f) acc.hist).index, x ∈ base ∨ P x.localPath := by
            rw [recordBefore_index]; exact hi
          cases hput : env.putFile f (mapR f) with
          | ok u =>
              obtain ⟨h2p, h2i⟩ := recordAfter_invariant P env.hist .upload f
                (mapR f) _ base hs1p hs1i
              exact ih (i + 1) _ (fun g hg => hP g (List.mem_cons_of_mem f hg)) h2p h2i
          | error m =>
              exact ih (i + 1) _ (fun g hg => hP g (List.mem_cons_of_mem f hg)) hs1p hs1i

lemma uploadLoop_transfers_mem (env : SyncEnv) (mapR : String → String)
    (msg : String) :
    ∀ (files : List String) (i : Nat) (acc : BatchAcc)
      (t : String × String), t ∈ (uploadLoop env mapR msg i files acc).transfers →
      t ∈ acc.transfers ∨ t.1 ∈ files := by
  intro files
  induction files with
  | nil => intro i acc t ht; exact Or.inl ht
  | cons f rest ih =>
      intro i acc t ht
      rw [uploadLoop] at ht
      cases hc : env.cancelled i with
      | true => rw [hc] at ht; simp only [if_true] at ht; exact Or.inl ht
      | false =>
          rw [hc] at ht
          simp only [Bool.false_eq_true, if_false] at ht
          cases hput : env.putFile f (mapR f) with
          | ok u =>
              rw [hput] at ht
              rcases ih (i + 1) _ t ht with h | h
              · rcases List.mem_append.1 h with h' | h'
                · exact Or.inl h'
                · right
                  have hteq : t = (f, mapR f) := by simpa using h'
                  rw [hteq]
                  exact List.mem_cons_self f rest
              · exact Or.inr (List.mem_cons_of_mem f h)
          | error m =>
              rw [hput] at ht
              rcases ih (i + 1) _ t ht with h | h
              · rcases List.mem_append.1 h with h' | h'
                · exact Or.inl h'
                · right
                  have hteq : t = (f, mapR f) := by simpa using h'
                  rw [hteq]
                  exact List.mem_cons_self f rest
              · exact Or.inr (List.mem_cons_of_mem f h)

lemma finishBatch_transfers (acc : BatchAcc) :
    (finishBatch acc).2.1 = acc.transfers := by
  cases hexn : acc.exn <;> simp [finishBatch, hexn]

lemma finishBatch_hist (acc : BatchAcc) :
    (finishBatch acc).2.2 = acc.hist := by
  cases hexn : acc.exn <;> simp [finishBatch, hexn]

/-- C3 (amended): only `syncAll` applies the exclusion matcher.  For
`syncAll`, a file whose workspace-relative path matches at least one exclude
glob pattern (plainly or with dotfile semantics) of the active profile is
not part of the enumerated file set, no transport transfer is made for it,
and no history entry is produced for it (starting from a state with no
pending backups).  `uploadFolder`/`downloadFolder` apply no exclusion filter
(see the counterexample). -/
theorem c3_exclusion_amended (env : SyncEnv) (profile : ServerProfile)
    (root f pat : String) (s : HistoryState)
    (hroot : env.workspaceRoot = some root)
    (hprof : env.activeProfile = some profile)
    (hconn : env.connectResult = Except.ok ())
    (hpend : s.pending = [])
    (hpat : pat ∈ profile.exclude)
    (hmatch : env.matcher (env.pathRelative root f) pat false = true ∨
      env.matcher (env.pathRelative root f) pat true = true) :
    f ∉ syncAllFiles env root profile ∧
    (∀ t ∈ (syncAll env s).2.1, t.1 ≠ f) ∧
    (∀ x ∈ (syncAll env s).2.2.index, x ∈ s.index ∨ x.localPath ≠ f) := by
  have hexcl : shouldExclude env.matcher (env.pathRelative root f)
      profile.exclude = true := by
    rw [shouldExclude, List.any_eq_true]
    refine ⟨pat, hpat, ?_⟩
    rcases hmatch with h | h <;> simp [h]
  have hnotmem : f ∉ syncAllFiles env root profile := by
    intro hf
    rw [syncAllFiles, List.mem_filter, hexcl] at hf
    simp at hf
  refine ⟨hnotmem, ?_, ?_⟩
  · rw [syncAll_unfold env profile root s hprof hroot hconn]
    intro t ht
    rw [finishBatch_transfers] at ht
    rcases uploadLoop_transfers_mem env _ _ _ _ _ t ht with h | h
    · exact absurd h (List.not_mem_nil t)
    · intro heq
      rw [heq] at h
      exact hnotmem h
  · rw [syncAll_unfold env profile root s hprof hroot hconn]
    intro x hx
    rw [finishBatch_hist] at hx
    have hinv := uploadLoop_hist_invariant env
      (fun g => env.posixJoin profile.remotePath
        (env.sepToPosix (env.pathRelative root g)))
      "Sync cancelled" (· ∈ syncAllFiles env root profile) s.index
      (syncAllFiles env root profile) 0 (initAcc s)
      (fun g hg => hg)
      (by
        intro kv hkv
        rw [show (initAcc s).hist = s from rfl, hpend] at hkv
        exact absurd hkv (List.not_mem_nil kv))
      (fun x hx => Or.inl hx)
    rcases hinv.2 x hx with h | h
    · exact Or.inl h
    · right
      intro heq
      rw [heq] at h
      exact hnotmem h

/-- C3 counterexample: `uploadFolder` transfers a file (`b.log`) whose
workspace-relative path matches the active profile's exclude pattern
`*.log` under the dotfile-inclusive matcher — the exclusion matcher is
never consulted by `uploadFolder` (nor `downloadFolder`), so the claim
fails for those bulk operations. -/
theorem c3_counterexample :
    env0.matcher (env0.pathRelative "/w" "b.log") "*.log" true = true ∧
    "*.log" ∈ profile0.exclude ∧
    ((uploadFolder env0 "/w" none state0).2.1).map Prod.fst = ["a.txt", "b.log"] ∧
    (uploadFolder env0 "/w" none state0).1
      = { success := true, filesProcessed := 2, errors := [] } := by
  refine ⟨by decide, by decide, by decide, by decide⟩

/-- Witness for C3 (amended): in the concrete environment `env0`, the file
`b.log` matches the exclude pattern `*.log` and is indeed not part of
`syncAll`'s enumerated file set (which is exactly `["a.txt"]`). -/
theorem c3_exclusion_amended_witness :
    syncAllFiles env0 "/w" profile0 = ["a.txt"] ∧
    "b.log" ∉ syncAllFiles env0 "/w" profile0 :=
  ⟨by decide,
    (c3_exclusion_amended env0 profile0 "/w" "b.log" "*.log" state0
      rfl rfl rfl rfl (by decide) (Or.inr (by decide))).1⟩

/-! ## Claim C4: no commit without snapshot -/

/-- C4: if at the time `recordBefore` runs the local file does not exist,
no snapshot is taken and the whole history state is left untouched, and a
subsequent `recordAfter` with the same (localPath, remotePath, operation)
key — the key being free of any pending entry — commits nothing: the
durable history index (indeed the whole state) is unchanged. -/
theorem c4_no_commit_without_snapshot (env : HistoryEnv) (op : Op)
    (id lp rp : String) (s : HistoryState)
    (hex : env.localExists lp = false)
    (hpend : pendingGet s.pending (backupKey lp rp op) = none) :
    recordBefore env op id lp rp s = s ∧
    recordAfter env op lp rp (recordBefore env op id lp rp s) = s := by
  have h1 : recordBefore env op id lp rp s = s := by
    rw [recordBefore]
    cases env.activeProfile with
    | none => rfl
    | some profile => simp [hex]
  refine ⟨h1, ?_⟩
  rw [h1, recordAfter]
  simp [hpend]

/-- Witness for C4: in the concrete environment (where no local file
exists) and the empty state, `recordBefore` followed by `recordAfter`
leaves the state unchanged. -/
theorem c4_no_commit_without_snapshot_witness :
    env0.hist.localExists "a.txt" = false ∧
    pendingGet state0.pending (backupKey "a.txt" "/srv/a.txt" .upload) = none ∧
    (recordBefore env0.hist .upload "id1" "a.txt" "/srv/a.txt" state0 = state0 ∧
      recordAfter env0.hist .upload "a.txt" "/srv/a.txt"
        (recordBefore env0.hist .upload "id1" "a.txt" "/srv/a.txt" state0)
        = state0) :=
  ⟨rfl, rfl,
    c4_no_commit_without_snapshot env0.hist .upload "id1" "a.txt" "/srv/a.txt"
      state0 rfl rfl⟩

/-! ## Claim C10: at-most-once commit per pending snapshot -/

lemma pendingGet_pendingDel (p : Pending) (k : String) :
    pendingGet (pendingDel p k) k = none := by
  rw [pendingGet]
  have hf : List.find? (fun x => x.1 == k) (pendingDel p k) = none := by
    rw [List.find?_eq_none]
    intro x hx
    have hxk := (List.mem_filter.1 hx).2
    simpa using hxk
  rw [hf]

/-- C10 (implicit): a `recordAfter` call that finds a pending entry for its
key commits it to the index exactly once (one `addEntry`, retention pass
included) and clears the pending marker, so a second `recordAfter` with the
same key and no intervening `recordBefore` leaves the whole state — in
particular the history index — unchanged. -/
theorem c10_at_most_once_commit (env : HistoryEnv) (op : Op) (lp rp : String)
    (s : HistoryState) (e : HistoryEntry)
    (hpend : pendingGet s.pending (backupKey lp rp op) = some e) :
    (recordAfter env op lp rp s).index
      = addEntry env.retention env.now s.index e ∧
    pendingGet (recordAfter env op lp rp s).pending (backupKey lp rp op) = none ∧
    recordAfter env op lp rp (recordAfter env op lp rp s)
      = recordAfter env op lp rp s := by
  have h1 : recordAfter env op lp rp s
      = { s with pending := pendingDel s.pending (backupKey lp rp op), index := addEntry env.retention env.now s.index e } := by
    rw [recordAfter]
    simp [hpend]
  have h2 : pendingGet (recordAfter env op lp rp s).pending
      (backupKey lp rp op) = none := by
    rw [h1]
    exact pendingGet_pendingDel s.pending _
  refine ⟨by rw [h1], h2, ?_⟩
  conv_lhs => rw [recordAfter]
  simp [h2]

/-- Witness for C10: from a concrete state with one pending entry, the
first `recordAfter` commits it and clears the marker, and a second
`recordAfter` changes nothing. -/
theorem c10_at_most_once_commit_witness :
    pendingGet state10.pending (backupKey "a.txt" "/srv/a.txt" .upload)
      = some (ceEntry 1 1) ∧
    ((recordAfter env0.hist .upload "a.txt" "/srv/a.txt" state10).index
        = addEntry env0.hist.retention env0.hist.now state10.index (ceEntry 1 1) ∧
      pendingGet (recordAfter env0.hist .upload "a.txt" "/srv/a.txt" state10).pending
        (backupKey "a.txt" "/srv/a.txt" .upload) = none ∧
      recordAfter env0.hist .upload "a.txt" "/srv/a.txt"
          (recordAfter env0.hist .upload "a.txt" "/srv/a.txt" state10)
        = recordAfter env0.hist .upload "a.txt" "/srv/a.txt" state10) :=
  ⟨rfl,
    c10_at_most_once_commit env0.hist .upload "a.txt" "/srv/a.txt" state10
      (ceEntry 1 1) rfl⟩

/-! ## Claim C6: confirmation-declined skip -/

/-- C6: in a single-file transfer (`uploadFile` with an existing remote
destination, `downloadFile` with an existing local destination), when the
overwrite-confirmation policy is enabled and the user's response is
non-affirmative, the operation returns `success = true`,
`filesProcessed = 0` and an empty error list, performs no transport
transfer, and leaves the history state unchanged. -/
theorem c6_confirmation_declined (env : SyncEnv) (profile : ServerProfile)
    (lp rmt lcl : String) (rp? : Option String) (s : HistoryState)
    (hprof : env.activeProfile = some profile)
    (hconn : env.connectResult = Except.ok ())
    (hconf : env.confirmBeforeOverwrite = true)
    (huser : env.userConfirms = false)
    (hrex : env.remoteExists (rp?.getD (getRemotePath env lp profile.remotePath))
      = true)
    (hlex : env.localExists lcl = true) :
    uploadFile env lp rp? s
      = ({ success := true, filesProcessed := 0, errors := [] }, [], s) ∧
    downloadFile env rmt (some lcl) s
      = ({ success := true, filesProcessed := 0, errors := [] }, [], s) := by
  constructor
  · rw [uploadFile]
    simp [hprof, hconn, hconf, huser, hrex]
  · rw [downloadFile]
    simp [hprof, hconn, hconf, huser, hlex]

/-- Witness for C6: a declined overwrite in `env6` skips both single-file
operations with an all-clear result and no state change. -/
theorem c6_confirmation_declined_witness :
    env6.confirmBeforeOverwrite = true ∧
    env6.userConfirms = false ∧
    (uploadFile env6 "a.txt" (some "/srv/a.txt") state0
        = ({ success := true, filesProcessed := 0, errors := [] }, [], state0) ∧
      downloadFile env6 "/srv/a.txt" (some "a.txt") state0
        = ({ success := true, filesProcessed := 0, errors := [] }, [], state0)) :=
  ⟨rfl, rfl,
    c6_confirmation_declined env6 profile0 "a.txt" "/srv/a.txt" "a.txt"
      (some "/srv/a.txt") state0 rfl rfl rfl rfl rfl rfl⟩

/-! ## Claim C8: precondition hard failure -/

/-- C8: with no active profile, every public sync operation (and with no
workspace root, `syncAll`, and `downloadFile` when it must derive its local
target) performs no transfers, leaves the history state unchanged, and
returns `success = false`, `filesProcessed = 0` and a single-element error
list. -/
theorem c8_precondition_hard_failure (envA envW envD : SyncEnv)
    (profD : ServerProfile) (root lp rmt fld rfld : String)
    (rp? lp? : Option String) (s : HistoryState)
    (hA : envA.activeProfile = none)
    (hAr : envA.workspaceRoot = some root)
    (hW : envW.workspaceRoot = none)
    (hD : envD.activeProfile = some profD)
    (hDr : envD.workspaceRoot = none) :
    uploadFile envA lp rp? s
      = ({ success := false, filesProcessed := 0, errors := ["No active server profile"] }, [], s) ∧
    downloadFile envA rmt lp? s
      = ({ success := false, filesProcessed := 0, errors := ["No active server profile"] }, [], s) ∧
    uploadFolder envA fld rp? s
      = ({ success := false, filesProcessed := 0, errors := ["No active server profile"] }, [], s) ∧
    downloadFolder envA rfld lp? s
      = ({ success := false, filesProcessed := 0, errors := ["No active server profile"] }, [], s) ∧
    syncAll envA s
      = ({ success := false, filesProcessed := 0, errors := ["No active server profile"] }, [], s) ∧
    syncAll envW s
      = ({ success := false, filesProcessed := 0, errors := ["No workspace folder open"] }, [], s) ∧
    downloadFile envD rmt none s
      = ({ success := false, filesProcessed := 0, errors := ["No workspace folder open"] }, [], s) := by
  refine ⟨?_, ?_, ?_, ?_, ?_, ?_, ?_⟩
  · rw [uploadFile]; simp [hA, failResult]
  · rw [downloadFile]; simp [hA, failResult]
  · rw [uploadFolder]; simp [hA, failResult]
  · rw [downloadFolder]; simp [hA, failResult]
  · rw [syncAll]; simp [hAr, hA, failResult]
  · rw [syncAll]; simp [hW, failResult]
  · rw [downloadFile]; simp [hD, getLocalPath, hDr, failResult]

/-- Witness for C8: in concrete environments missing the active profile or
the workspace root, every operation returns the hard-failure result. -/
theorem c8_precondition_hard_failure_witness :
    env8a.activeProfile = none ∧
    env8w.workspaceRoot = none ∧
    (uploadFile env8a "a.txt" none state0
        = ({ success := false, filesProcessed := 0, errors := ["No active server profile"] }, [], state0) ∧
      downloadFile env8a "/srv/a.txt" none state0
        = ({ success := false, filesProcessed := 0, errors := ["No active server profile"] }, [], state0) ∧
      uploadFolder env8a "/w" none state0
        = ({ success := false, filesProcessed := 0, errors := ["No active server profile"] }, [], state0) ∧
      downloadFolder env8a "/srv" none state0
        = ({ success := false, filesProcessed := 0, errors := ["No active server profile"] }, [], state0) ∧
      syncAll env8a state0
        = ({ success := false, filesProcessed := 0, errors := ["No active server profile"] }, [], state0) ∧
      syncAll env8w state0
        = ({ success := false, filesProcessed := 0, errors := ["No workspace folder open"] }, [], state0) ∧
      downloadFile env8w "/srv/a.txt" none state0
        = ({ success := false, filesProcessed := 0, errors := ["No workspace folder open"] }, [], state0)) :=
  ⟨rfl, rfl,
    c8_precondition_hard_failure env8a env8w env8w profile0 "/w" "a.txt"
      "/srv/a.txt" "/w" "/srv" none none state0 rfl rfl rfl rfl rfl⟩

/-! ## Claim C7: idempotent restore -/

/-- C7: for a `HistoryEntry` whose backup blob is resolvable, two
consecutive `restoreFromHistory` calls (no intervening mutation of the
history store) both succeed and both write the blob's bytes to
`entry.localPath` — byte-identical content, full replace; for an entry
whose blob is not resolvable (version directory gone, or no matching blob
file), `restoreFromHistory` fails with a not-found error and leaves the
local filesystem unchanged. -/
theorem c7_idempotent_restore (ds : Int → String) (bn : String → String)
    (st : BackupStore) (fs : String → Option String) (e : HistoryEntry)
    (fname content : String)
    (st2 : BackupStore) (fs2 : String → Option String) (e2 : HistoryEntry)
    (h1 : getBackupPath ds bn st e = Except.ok (some (fname, content)))
    (h2 : getBackupPath ds bn st2 e2 = Except.ok none ∨
      ∃ m, getBackupPath ds bn st2 e2 = Except.error m) :
    (restoreFromHistory ds bn st fs e).1 = Except.ok () ∧
    (restoreFromHistory ds bn st fs e).2 e.localPath = some content ∧
    (restoreFromHistory ds bn st ((restoreFromHistory ds bn st fs e).2) e).1
      = Except.ok () ∧
    (restoreFromHistory ds bn st ((restoreFromHistory ds bn st fs e).2) e).2
      e.localPath = some content ∧
    (∃ m2, (restoreFromHistory ds bn st2 fs2 e2).1 = Except.error m2) ∧
    (restoreFromHistory ds bn st2 fs2 e2).2 = fs2 := by
  refine ⟨?_, ?_, ?_, ?_, ?_, ?_⟩
  · rw [restoreFromHistory]
    simp [h1]
  · rw [restoreFromHistory]
    simp [h1]
  · rw [restoreFromHistory]
    simp [h1]
  · rw [restoreFromHistory]
    simp [h1]
  · rcases h2 with h | ⟨m, h⟩
    · exact ⟨"Backup file not found", by rw [restoreFromHistory]; simp [h]⟩
    · exact ⟨m, by rw [restoreFromHistory]; simp [h]⟩
  · rcases h2 with h | ⟨m, h⟩
    · rw [restoreFromHistory]; simp [h]
    · rw [restoreFromHistory]; simp [h]

/-- Witness for C7: with the concrete store `store7`, restoring
`ceEntry 1 1` twice writes `"old bytes"` both times, and restoring against
an empty store fails and leaves the filesystem unchanged. -/
theorem c7_idempotent_restore_witness :
    getBackupPath env0.dateStr env0.baseName store7 (ceEntry 1 1)
      = Except.ok (some ("a.txt_v1", "old bytes")) ∧
    ((restoreFromHistory env0.dateStr env0.baseName store7 (fun _ => none)
        (ceEntry 1 1)).2 "a.txt" = some "old bytes" ∧
      (restoreFromHistory env0.dateStr env0.baseName store7
        ((restoreFromHistory env0.dateStr env0.baseName store7 (fun _ => none)
          (ceEntry 1 1)).2) (ceEntry 1 1)).2 "a.txt" = some "old bytes" ∧
      (∃ m2, (restoreFromHistory env0.dateStr env0.baseName ⟨[]⟩ (fun _ => none)
        (ceEntry 2 2)).1 = Except.error m2) ∧
      (restoreFromHistory env0.dateStr env0.baseName ⟨[]⟩ (fun _ => none)
        (ceEntry 2 2)).2 = (fun _ => none)) := by
  have h := c7_idempotent_restore env0.dateStr env0.baseName store7
    (fun _ => none) (ceEntry 1 1) "a.txt_v1" "old bytes"
    ⟨[]⟩ (fun _ => none) (ceEntry 2 2)
    rfl (Or.inr ⟨"ENOENT: no such directory d_prod", rfl⟩)
  exact ⟨rfl, h.2.1, h.2.2.2.1, h.2.2.2.2.1, h.2.2.2.2.2⟩

